import Mathlib

/-!
Verification of the training/validation notebook `GPU-Image-Classification.ipynb`
(repository `pricingnbs`): a shallow embedding of its data model and procedures,
followed by theorems settling the specification claims.

Modelling conventions:
* Images, model parameters, gradients and optimizer internals are opaque library
  data, so they appear as type parameters (`α`, `W`, `G`, `O`); the library
  primitives acting on them (forward pass, autograd, Adam) are fields of
  `TorchLib`.
* Class scores are rationals (machine floats are rationals), so argmax and the
  accuracy computation are executable.  Loss values live in an arbitrary
  `DivisionRing L` (instantiated at `ℝ` when the cross-entropy formula matters),
  because the notebook only ever adds losses and divides them by sample counts.
* Stateful mutation of the `nn.Module` (its parameters, parameter gradients
  and train/eval flag) is explicit state passing of `ModelState`.
* The observable side effects needed by the claims (printed metric lines, epochs
  at which validation ran, the model mode at the start of each epoch's batch
  loop, and the CUDA memory query inside `validate`) are recorded in the
  returned state or in an explicit effect list.
-/

namespace Cifar

/-- The two `nn.Module` modes toggled by `model.train()` / `model.eval()`. -/
inductive Mode
  | train
  | eval
deriving DecidableEq

/-- Compute device, source line `device = torch.device('cuda' if ... else 'cpu')`. -/
inductive Device
  | cuda
  | cpu
deriving DecidableEq

/-- Observable effects of `validate` that the claims mention: the unguarded
`print('Cached: ', round(torch.cuda.memory_reserved(0)/1024**3,1), 'GB')`
line (which queries a CUDA-only facility), and printed metric text. -/
inductive Effect
  | cudaMemoryQuery
  | printMetrics
deriving DecidableEq

/-- Device selection from the notebook:
`device = torch.device('cuda' if torch.cuda.is_available() else 'cpu')`. -/
def selectDevice (cudaAvailable : Bool) : Device :=
  if cudaAvailable then Device.cuda else Device.cpu

/-- The mutable state of the `nn.Module`: parameter tensors `params`, the
gradients stored on those parameters `grad`, and the train/eval flag. -/
structure ModelState (W G : Type) where
  params : W
  grad : G
  mode : Mode

/-- The deep-learning library primitives the notebook calls, kept abstract:
`forward` is `model(images)` on one image (mode-dependent), `gradFn` is the
gradient that `loss.backward()` adds for a batch, `gAdd`/`gZero` are gradient
accumulation and the cleared gradient, `optStep` is one `optimizer.step()`
(threading the optimizer's internal Adam state), and `optInit` is
`optim.Adam(model.parameters(), lr=lr)`. -/
structure TorchLib (α W G O : Type) where
  forward : W → Mode → α → List ℚ
  gradFn : W → Mode → List (α × ℕ) → G
  gAdd : G → G → G
  gZero : G
  optStep : O → W → G → O × W
  optInit : W → ℚ → O

/-- `preds.argmax(dim=1)` for one row of scores: index of the first maximum. -/
def argmaxIdx (s : List ℚ) : ℕ :=
  (List.range s.length).foldl
    (fun best i => if s.getD best 0 < s.getD i 0 then i else best) 0

/-- Apply the model to every image of a batch, pairing each score row with the
true label: the `(preds, labels)` data flowing into the loss and the accuracy
computation. -/
def scoreBatch {α : Type} (fw : α → List ℚ) (batch : List (α × ℕ)) :
    List (List ℚ × ℕ) :=
  batch.map (fun s => (fw s.1, s.2))

/-- `(labels == preds_nonprob).sum().item()` for one scored batch. -/
def correctCount (scored : List (List ℚ × ℕ)) : ℕ :=
  (scored.filter (fun s => s.2 == argmaxIdx s.1)).length

/-- Per-sample negative log-likelihood of the true class, the formula computed
by `nn.CrossEntropyLoss` on a row `x` of scores with target `class`:
`-x[class] + log (sum_j exp (x[j]))`. -/
noncomputable def nllLoss (s : List ℚ) (y : ℕ) : ℝ :=
  Real.log ((s.map (fun q : ℚ => Real.exp (q : ℝ))).sum) - ((s.getD y 0 : ℚ) : ℝ)

/-- `criterion = nn.CrossEntropyLoss()` applied to a scored batch: the default
reduction is the MEAN of the per-sample losses over the batch. -/
noncomputable def crossEntropyLoss (scored : List (List ℚ × ℕ)) : ℝ :=
  ((scored.map (fun p => nllLoss p.1 p.2)).sum) / (scored.length : ℝ)

/-- One iteration of the loop inside `validate`: accumulate the batch loss
`loss += criterion(preds, labels)`, the correct-prediction count
`N_correct += (labels==preds_nonprob).sum().item()`, and the sample count
`N += len(labels)`. -/
def valStep {α L : Type} [DivisionRing L] (fw : α → List ℚ)
    (criterion : List (List ℚ × ℕ) → L)
    (acc : L × ℕ × ℕ) (batch : List (α × ℕ)) : L × ℕ × ℕ :=
  let scored := scoreBatch fw batch
  (acc.1 + criterion scored, acc.2.1 + correctCount scored, acc.2.2 + batch.length)

/-- Scalars returned by `validate`: `loss / N` and `N_correct / N`. -/
structure ValResult (L : Type) where
  loss : L
  acc : ℚ

/-- The notebook's `validate(test_dl, model, criterion)`.  It first runs
`model.eval()`, then unconditionally executes
`print('Cached: ', round(torch.cuda.memory_reserved(0)/1024**3,1), 'GB')`
(a CUDA-only memory query, performed whatever the device is), then inside
`torch.no_grad()` folds over the test batches, and returns
`(loss / N, N_correct / N)` together with the model state after the call and
the list of effects it performed.  `.to(device)` moves are value-preserving
and left implicit. -/
def validate {α W G O L : Type} [DivisionRing L] (lib : TorchLib α W G O)
    (test_dl : List (List (α × ℕ))) (m : ModelState W G)
    (criterion : List (List ℚ × ℕ) → L) (dev : Device) :
    ValResult L × ModelState W G × List Effect :=
  let m2 : ModelState W G := { m with mode := Mode.eval }
  let effs : List Effect := [Effect.cudaMemoryQuery]
  let r := test_dl.foldl (valStep (lib.forward m2.params m2.mode) criterion)
    ((0 : L), 0, 0)
  ({ loss := r.1 / ((r.2.2 : ℕ) : L), acc := (r.2.1 : ℚ) / (r.2.2 : ℚ) }, m2, effs)

/-- State threaded through `train_model`: the model, the optimizer internals,
the running loss `curr_loss` and sample count `N` of the current epoch, the
two metrics dictionaries (association lists in insertion order), the epochs at
which a metrics line was printed, and — as an observation needed by the mode
claims — the model mode at the moment each epoch's batch loop began. -/
structure TrainState (W G O L : Type) where
  model : ModelState W G
  opt : O
  currLoss : L
  nSeen : ℕ
  accDict : List (ℕ × ℚ)
  lossDict : List (ℕ × L)
  printedEpochs : List ℕ
  batchLoopModes : List Mode

/-- One iteration of the batch loop of `train_model`, in source order:
`preds = model(images)`; `loss = criterion(preds, labels)`;
`curr_loss += loss.item()`; `N += len(labels)`; `optimizer.zero_grad()`;
`loss.backward()` (which ADDS the new gradient to the cleared one);
`optimizer.step()`. -/
def trainBatchStep {α W G O L : Type} [DivisionRing L] (lib : TorchLib α W G O)
    (criterion : List (List ℚ × ℕ) → L) (dev : Device)
    (st : TrainState W G O L) (batch : List (α × ℕ)) : TrainState W G O L :=
  let scored := scoreBatch (lib.forward st.model.params st.model.mode) batch
  let loss := criterion scored
  let currLoss := st.currLoss + loss
  let nSeen := st.nSeen + batch.length
  let clearedGrad := lib.gZero
  let newGrad := lib.gAdd clearedGrad (lib.gradFn st.model.params st.model.mode batch)
  let stepped := lib.optStep st.opt st.model.params newGrad
  { st with
      model := { st.model with params := stepped.2, grad := newGrad },
      opt := stepped.1,
      currLoss := currLoss,
      nSeen := nSeen }

/-- The validation guard of `train_model`:
`if epoch % print_freq == 0 or epoch == N_epochs - 1`. -/
def valGuard (N_epochs print_freq e : ℕ) : Bool :=
  e % print_freq == 0 || e == N_epochs - 1

/-- One iteration of the epoch loop of `train_model`: reset `curr_loss` and
`N`, run the batch loop, and, when the validation guard holds, call
`validate`, record its two outputs keyed by the epoch, and print the metrics
line.  The mode at the start of the batch loop is logged. -/
def runEpoch {α W G O L : Type} [DivisionRing L] (lib : TorchLib α W G O)
    (criterion : List (List ℚ × ℕ) → L)
    (train_dl test_dl : List (List (α × ℕ))) (N_epochs print_freq : ℕ)
    (dev : Device) (st : TrainState W G O L) (e : ℕ) : TrainState W G O L :=
  let st0 := { st with
      currLoss := (0 : L), nSeen := 0,
      batchLoopModes := st.batchLoopModes ++ [st.model.mode] }
  let st1 := train_dl.foldl (trainBatchStep lib criterion dev) st0
  if valGuard N_epochs print_freq e then
    let v := validate lib test_dl st1.model criterion dev
    { st1 with
        model := v.2.1,
        accDict := st1.accDict ++ [(e, v.1.acc)],
        lossDict := st1.lossDict ++ [(e, v.1.loss)],
        printedEpochs := st1.printedEpochs ++ [e] }
  else st1

/-- The notebook's
`train_model(train_dl, test_dl, model, criterion, N_epochs, print_freq, lr)`:
`model.train()` is executed ONCE, before the epoch loop (not per epoch); the
optimizer is created from the model parameters and the learning rate; then the
epoch loop runs over `range(N_epochs)`.  The source returns the triple
`(model, acc_dict, loss_dict)`, which are the `model`, `accDict` and
`lossDict` fields of the returned state; the other fields are observations of
the run. -/
def train_model {α W G O L : Type} [DivisionRing L] (lib : TorchLib α W G O)
    (train_dl test_dl : List (List (α × ℕ))) (model0 : ModelState W G)
    (criterion : List (List ℚ × ℕ) → L) (N_epochs print_freq : ℕ) (lr : ℚ)
    (dev : Device) : TrainState W G O L :=
  let st0 : TrainState W G O L :=
    { model := { model0 with mode := Mode.train },
      opt := lib.optInit model0.params lr,
      currLoss := 0, nSeen := 0,
      accDict := [], lossDict := [],
      printedEpochs := [], batchLoopModes := [] }
  (List.range N_epochs).foldl
    (runEpoch lib criterion train_dl test_dl N_epochs print_freq dev) st0

/-- Batch formation performed by `DataLoader(data, batch_size=B)` with the
notebook's arguments: `shuffle` defaults to `False` and `drop_last` to
`False`, so the loader yields consecutive chunks of size `B` in dataset
order, the last chunk possibly shorter. -/
def makeBatches {σ : Type} (B : ℕ) : List σ → List (List σ)
  | [] => []
  | x :: xs => (x :: xs.take (B - 1)) :: makeBatches B (xs.drop (B - 1))
termination_by l => l.length
decreasing_by simp [List.length_drop]; omega

/-- The notebook's `create_dataloaders(train_data, test_data, batch_size,
pin_memory)`: one sequential batch iterator per split (`pin_memory` only
affects transfer performance, never the yielded values). -/
def create_dataloaders {σ : Type} (train_data test_data : List σ)
    (batch_size : ℕ) (pinMemory : Bool) : List (List σ) × List (List σ) :=
  (makeBatches batch_size train_data, makeBatches batch_size test_data)

/-- Modelled from the spec's words (section 4.7): the mean per-sample loss
over one full held-out pass, i.e. the sum of the per-sample negative
log-likelihood losses divided by the total number of held-out samples.  Named
after the spec for comparison with what `validate` computes. -/
noncomputable def specMeanPerSampleLoss {α : Type} (fw : α → List ℚ)
    (dl : List (List (α × ℕ))) : ℝ :=
  ((dl.flatten.map (fun s => nllLoss (fw s.1) s.2)).sum) / ((dl.flatten.length : ℕ) : ℝ)

/-! ## Concrete instantiations used by counterexamples and witnesses -/

/-- Degenerate library instance over unit types: a one-class model. -/
def unitLib : TorchLib Unit Unit Unit Unit :=
  { forward := fun _ _ _ => [0]
    gradFn := fun _ _ _ => ()
    gAdd := fun _ _ => ()
    gZero := ()
    optStep := fun o w _ => (o, w)
    optInit := fun _ _ => () }

/-- Fresh model state for the unit library. -/
def unitModel : ModelState Unit Unit :=
  { params := (), grad := (), mode := Mode.train }

/-- A one-batch, one-sample loader for the unit library. -/
def unitLoader : List (List (Unit × ℕ)) := [[((), 0)]]

/-- A constant rational-valued criterion, used where only the control flow of
the driver matters. -/
def qCriterion : List (List ℚ × ℕ) → ℚ := fun _ => 0

/-- Per-image scores used by the C3 counterexample: a two-class score row for
`true`, a one-class score row for `false`. -/
def c3Forward : Bool → List ℚ := fun b => if b then [0, 0] else [0]

/-- Library instance whose model computes `c3Forward`. -/
def c3Lib : TorchLib Bool Unit Unit Unit :=
  { forward := fun _ _ i => c3Forward i
    gradFn := fun _ _ _ => ()
    gAdd := fun _ _ => ()
    gZero := ()
    optStep := fun o w _ => (o, w)
    optInit := fun _ _ => () }

/-- Held-out pass used by the C3 counterexample: a batch of two samples
followed by a batch of one sample (three samples, uneven batches). -/
def c3Loader : List (List (Bool × ℕ)) := [[(true, 0), (true, 0)], [(false, 0)]]

/-! ## Batch iterator lemmas (claim C6) -/

/-- The batches reconstruct the dataset exactly, in order. -/
theorem makeBatches_flatten {σ : Type} (B : ℕ) (xs : List σ) :
    (makeBatches B xs).flatten = xs := by
  induction xs using makeBatches.induct B with
  | case1 => simp [makeBatches]
  | case2 x l ih =>
    rw [makeBatches]
    simp [ih, List.take_append_drop]

/-- The loader yields `ceil (S / B)` batches. -/
theorem makeBatches_length {σ : Type} (B : ℕ) (hB : 1 ≤ B) (xs : List σ) :
    (makeBatches B xs).length = (xs.length + B - 1) / B := by
  induction xs using makeBatches.induct B with
  | case1 =>
    simp [makeBatches]
    rw [Nat.div_eq_of_lt (by omega)]
  | case2 x l ih =>
    rw [makeBatches]
    simp only [List.length_cons, ih, List.length_drop]
    rcases le_or_lt l.length (B - 1) with hle | hgt
    · have h1 : l.length - (B - 1) = 0 := by omega
      rw [h1]
      have h2 : (0 + B - 1) / B = 0 := Nat.div_eq_of_lt (by omega)
      have h3 : l.length + 1 + B - 1 = l.length + B := by omega
      rw [h2, h3]
      rw [Nat.add_div_right _ (by omega : 0 < B)]
      rw [Nat.div_eq_of_lt (by omega)]
    · have h1 : l.length - (B - 1) + B - 1 = l.length := by omega
      rw [h1]
      have h3 : l.length + 1 + B - 1 = l.length + B := by omega
      rw [h3, Nat.add_div_right _ (by omega : 0 < B)]

/-- The loader is empty exactly on the empty dataset. -/
theorem makeBatches_eq_nil {σ : Type} (B : ℕ) (xs : List σ) :
    makeBatches B xs = [] ↔ xs = [] := by
  cases xs with
  | nil => simp [makeBatches]
  | cons x l => rw [makeBatches]; simp

/-- Every batch except possibly the last has exactly `B` samples. -/
theorem makeBatches_dropLast {σ : Type} (B : ℕ) (hB : 1 ≤ B) (xs : List σ) :
    ∀ c ∈ (makeBatches B xs).dropLast, c.length = B := by
  induction xs using makeBatches.induct B with
  | case1 => simp [makeBatches]
  | case2 x l ih =>
    rw [makeBatches]
    rcases h : makeBatches B (l.drop (B - 1)) with _ | ⟨r, rs⟩
    · simp
    · intro c hc
      rw [List.dropLast_cons₂] at hc
      rcases List.mem_cons.mp hc with hc | hc
      · subst hc
        have hne : l.drop (B - 1) ≠ [] := by
          intro h0
          rw [h0] at h
          simp [makeBatches] at h
        have hlen : B - 1 < l.length := by
          by_contra hcon
          exact hne (List.drop_eq_nil_of_le (by omega))
        simp [List.length_take]
        omega
      · rw [← h] at hc
        exact ih c hc

/-- No batch exceeds the configured size. -/
theorem makeBatches_le {σ : Type} (B : ℕ) (hB : 1 ≤ B) (xs : List σ) :
    ∀ c ∈ makeBatches B xs, c.length ≤ B := by
  induction xs using makeBatches.induct B with
  | case1 => simp [makeBatches]
  | case2 x l ih =>
    rw [makeBatches]
    intro c hc
    rcases List.mem_cons.mp hc with hc | hc
    · subst hc
      simp [List.length_take]
      omega
    · exact ih c hc

/-- Claim C6: for every batch size `B ≥ 1` and dataset, the batch iterator
(as built by `create_dataloaders` for either split) yields exactly
`ceil (S / B)` batches in the fixed dataset traversal order, every sample
appearing exactly once across the pass (their concatenation is the dataset
itself), with every batch before the last of size exactly `B` and no batch
larger than `B` (so only the last batch may be shorter). -/
theorem makeBatches_spec {σ : Type} (B : ℕ) (hB : 1 ≤ B) (data : List σ) :
    (makeBatches B data).length = (data.length + B - 1) / B ∧
    (makeBatches B data).flatten = data ∧
    (∀ c ∈ (makeBatches B data).dropLast, c.length = B) ∧
    (∀ c ∈ makeBatches B data, c.length ≤ B) :=
  ⟨makeBatches_length B hB data, makeBatches_flatten B data,
    makeBatches_dropLast B hB data, makeBatches_le B hB data⟩

/-- Witness for claim C6 at `B = 2` over a three-sample dataset. -/
theorem makeBatches_spec_witness :
    1 ≤ 2 ∧
    ((makeBatches 2 ([0, 1, 2] : List ℕ)).length = (([0, 1, 2] : List ℕ).length + 2 - 1) / 2 ∧
     (makeBatches 2 ([0, 1, 2] : List ℕ)).flatten = [0, 1, 2] ∧
     (∀ c ∈ (makeBatches 2 ([0, 1, 2] : List ℕ)).dropLast, c.length = 2) ∧
     (∀ c ∈ makeBatches 2 ([0, 1, 2] : List ℕ), c.length ≤ 2)) :=
  ⟨by decide, makeBatches_spec 2 (by decide) [0, 1, 2]⟩

/-! ## Frame facts about the batch loop

The batch loop of `train_model` touches only the model parameters and
gradients, the optimizer state, and the running `curr_loss` / `N` counters;
it never writes the metrics dictionaries, the printed lines, the logged
modes, or the model mode itself. -/

theorem foldl_tbs_accDict {α W G O L : Type} [DivisionRing L]
    (lib : TorchLib α W G O) (criterion : List (List ℚ × ℕ) → L) (dev : Device) :
    ∀ (bs : List (List (α × ℕ))) (st : TrainState W G O L),
      (bs.foldl (trainBatchStep lib criterion dev) st).accDict = st.accDict := by
  intro bs
  induction bs with
  | nil => intro st; rfl
  | cons b bs ih => intro st; rw [List.foldl_cons, ih]; rfl

theorem foldl_tbs_lossDict {α W G O L : Type} [DivisionRing L]
    (lib : TorchLib α W G O) (criterion : List (List ℚ × ℕ) → L) (dev : Device) :
    ∀ (bs : List (List (α × ℕ))) (st : TrainState W G O L),
      (bs.foldl (trainBatchStep lib criterion dev) st).lossDict = st.lossDict := by
  intro bs
  induction bs with
  | nil => intro st; rfl
  | cons b bs ih => intro st; rw [List.foldl_cons, ih]; rfl

theorem foldl_tbs_printed {α W G O L : Type} [DivisionRing L]
    (lib : TorchLib α W G O) (criterion : List (List ℚ × ℕ) → L) (dev : Device) :
    ∀ (bs : List (List (α × ℕ))) (st : TrainState W G O L),
      (bs.foldl (trainBatchStep lib criterion dev) st).printedEpochs = st.printedEpochs := by
  intro bs
  induction bs with
  | nil => intro st; rfl
  | cons b bs ih => intro st; rw [List.foldl_cons, ih]; rfl

theorem foldl_tbs_batchModes {α W G O L : Type} [DivisionRing L]
    (lib : TorchLib α W G O) (criterion : List (List ℚ × ℕ) → L) (dev : Device) :
    ∀ (bs : List (List (α × ℕ))) (st : TrainState W G O L),
      (bs.foldl (trainBatchStep lib criterion dev) st).batchLoopModes = st.batchLoopModes := by
  intro bs
  induction bs with
  | nil => intro st; rfl
  | cons b bs ih => intro st; rw [List.foldl_cons, ih]; rfl

theorem foldl_tbs_mode {α W G O L : Type} [DivisionRing L]
    (lib : TorchLib α W G O) (criterion : List (List ℚ × ℕ) → L) (dev : Device) :
    ∀ (bs : List (List (α × ℕ))) (st : TrainState W G O L),
      (bs.foldl (trainBatchStep lib criterion dev) st).model.mode = st.model.mode := by
  intro bs
  induction bs with
  | nil => intro st; rfl
  | cons b bs ih => intro st; rw [List.foldl_cons, ih]; rfl

/-! ## One epoch of the driver -/

theorem runEpoch_accKeys {α W G O L : Type} [DivisionRing L]
    (lib : TorchLib α W G O) (criterion : List (List ℚ × ℕ) → L)
    (train_dl test_dl : List (List (α × ℕ))) (E pf : ℕ) (dev : Device)
    (st : TrainState W G O L) (e : ℕ) :
    (runEpoch lib criterion train_dl test_dl E pf dev st e).accDict.map Prod.fst
      = st.accDict.map Prod.fst ++ (if valGuard E pf e then [e] else []) := by
  by_cases hg : valGuard E pf e <;>
    simp [runEpoch, hg, foldl_tbs_accDict]

theorem runEpoch_lossKeys {α W G O L : Type} [DivisionRing L]
    (lib : TorchLib α W G O) (criterion : List (List ℚ × ℕ) → L)
    (train_dl test_dl : List (List (α × ℕ))) (E pf : ℕ) (dev : Device)
    (st : TrainState W G O L) (e : ℕ) :
    (runEpoch lib criterion train_dl test_dl E pf dev st e).lossDict.map Prod.fst
      = st.lossDict.map Prod.fst ++ (if valGuard E pf e then [e] else []) := by
  by_cases hg : valGuard E pf e <;>
    simp [runEpoch, hg, foldl_tbs_lossDict]

theorem runEpoch_printed {α W G O L : Type} [DivisionRing L]
    (lib : TorchLib α W G O) (criterion : List (List ℚ × ℕ) → L)
    (train_dl test_dl : List (List (α × ℕ))) (E pf : ℕ) (dev : Device)
    (st : TrainState W G O L) (e : ℕ) :
    (runEpoch lib criterion train_dl test_dl E pf dev st e).printedEpochs
      = st.printedEpochs ++ (if valGuard E pf e then [e] else []) := by
  by_cases hg : valGuard E pf e <;>
    simp [runEpoch, hg, foldl_tbs_printed]

/-- After an epoch the model is in evaluation mode exactly when the epoch
triggered validation; otherwise the mode is whatever it was before, since
nothing in the epoch body sets it back to training mode. -/
theorem runEpoch_mode {α W G O L : Type} [DivisionRing L]
    (lib : TorchLib α W G O) (criterion : List (List ℚ × ℕ) → L)
    (train_dl test_dl : List (List (α × ℕ))) (E pf : ℕ) (dev : Device)
    (st : TrainState W G O L) (e : ℕ) :
    (runEpoch lib criterion train_dl test_dl E pf dev st e).model.mode
      = (if valGuard E pf e then Mode.eval else st.model.mode) := by
  by_cases hg : valGuard E pf e <;>
    simp [runEpoch, hg, validate, foldl_tbs_mode]

theorem runEpoch_batchModes {α W G O L : Type} [DivisionRing L]
    (lib : TorchLib α W G O) (criterion : List (List ℚ × ℕ) → L)
    (train_dl test_dl : List (List (α × ℕ))) (E pf : ℕ) (dev : Device)
    (st : TrainState W G O L) (e : ℕ) :
    (runEpoch lib criterion train_dl test_dl E pf dev st e).batchLoopModes
      = st.batchLoopModes ++ [st.model.mode] := by
  by_cases hg : valGuard E pf e <;>
    simp [runEpoch, hg, foldl_tbs_batchModes]

/-! ## The epoch loop -/

theorem foldl_runEpoch_accKeys {α W G O L : Type} [DivisionRing L]
    (lib : TorchLib α W G O) (criterion : List (List ℚ × ℕ) → L)
    (train_dl test_dl : List (List (α × ℕ))) (E pf : ℕ) (dev : Device) :
    ∀ (es : List ℕ) (st : TrainState W G O L),
      ((es.foldl (runEpoch lib criterion train_dl test_dl E pf dev) st).accDict).map Prod.fst
        = st.accDict.map Prod.fst ++ es.filter (valGuard E pf) := by
  intro es
  induction es with
  | nil => intro st; simp
  | cons e es ih =>
    intro st
    rw [List.foldl_cons, ih, runEpoch_accKeys]
    by_cases hg : valGuard E pf e
    · simp [hg]
    · simp [hg]

theorem foldl_runEpoch_lossKeys {α W G O L : Type} [DivisionRing L]
    (lib : TorchLib α W G O) (criterion : List (List ℚ × ℕ) → L)
    (train_dl test_dl : List (List (α × ℕ))) (E pf : ℕ) (dev : Device) :
    ∀ (es : List ℕ) (st : TrainState W G O L),
      ((es.foldl (runEpoch lib criterion train_dl test_dl E pf dev) st).lossDict).map Prod.fst
        = st.lossDict.map Prod.fst ++ es.filter (valGuard E pf) := by
  intro es
  induction es with
  | nil => intro st; simp
  | cons e es ih =>
    intro st
    rw [List.foldl_cons, ih, runEpoch_lossKeys]
    by_cases hg : valGuard E pf e
    · simp [hg]
    · simp [hg]

/-- A key occurs in an association list exactly when it occurs among the
mapped-out keys. -/
theorem mem_map_fst {γ : Type} (l : List (ℕ × γ)) (e : ℕ) :
    (∃ v, (e, v) ∈ l) ↔ e ∈ l.map Prod.fst := by
  constructor
  · rintro ⟨v, hv⟩
    exact List.mem_map.mpr ⟨(e, v), hv, rfl⟩
  · intro h
    rcases List.mem_map.mp h with ⟨p, hp, hfst⟩
    exact ⟨p.2, by rw [← hfst]; exact hp⟩

/-! ## Claim theorems about the training driver -/

/-- Claim C5: for every epoch count `N_epochs ≥ 1`, cadence `print_freq ≥ 1`
and epoch index `e < N_epochs`, the driver records validation outputs keyed by
`e` in BOTH metrics records if and only if `e % print_freq = 0` or
`e = N_epochs - 1`; every other epoch leaves no entry, so the records are
sparse, not dense. -/
theorem train_model_records_iff {α W G O L : Type} [DivisionRing L]
    (lib : TorchLib α W G O) (train_dl test_dl : List (List (α × ℕ)))
    (model0 : ModelState W G) (criterion : List (List ℚ × ℕ) → L)
    (N_epochs print_freq : ℕ) (lr : ℚ) (dev : Device)
    (hE : 1 ≤ N_epochs) (hP : 1 ≤ print_freq) (e : ℕ) (he : e < N_epochs) :
    ((∃ a, (e, a) ∈ (train_model lib train_dl test_dl model0 criterion N_epochs print_freq lr dev).accDict) ∧
     (∃ l, (e, l) ∈ (train_model lib train_dl test_dl model0 criterion N_epochs print_freq lr dev).lossDict))
      ↔ (e % print_freq = 0 ∨ e = N_epochs - 1) := by
  rw [mem_map_fst, mem_map_fst]
  rw [train_model]
  rw [foldl_runEpoch_accKeys, foldl_runEpoch_lossKeys]
  simp only [List.map_nil, List.nil_append, List.mem_filter, List.mem_range]
  constructor
  · rintro ⟨⟨h1, h2⟩, h3⟩
    simp [valGuard] at h2
    exact h2
  · intro h
    have hg : valGuard N_epochs print_freq e = true := by
      simp [valGuard]
      exact h
    exact ⟨⟨he, hg⟩, ⟨he, hg⟩⟩

/-- Witness for claim C5 at `N_epochs = 3`, `print_freq = 2`, `e = 1` (an
epoch that is neither on the cadence nor final, hence recorded in neither
dictionary). -/
theorem train_model_records_iff_witness :
    (1 ≤ 3 ∧ 1 ≤ 2 ∧ 1 < 3) ∧
    (((∃ a, (1, a) ∈ (train_model unitLib unitLoader unitLoader unitModel qCriterion 3 2 (1 / 1000) Device.cpu).accDict) ∧
      (∃ l, (1, l) ∈ (train_model unitLib unitLoader unitLoader unitModel qCriterion 3 2 (1 / 1000) Device.cpu).lossDict))
        ↔ (1 % 2 = 0 ∨ 1 = 3 - 1)) :=
  ⟨⟨by decide, by decide, by decide⟩,
    train_model_records_iff unitLib unitLoader unitLoader unitModel qCriterion 3 2 (1 / 1000)
      Device.cpu (by decide) (by decide) 1 (by decide)⟩

/-- Claim C7: with the epoch count set to `0`, the training driver returns the
model with its parameters unchanged, both metrics records empty, and prints
nothing (no epoch line, hence also no validation: a validation entry and a
printed line are produced under the same guard). -/
theorem train_model_zero_epochs {α W G O L : Type} [DivisionRing L]
    (lib : TorchLib α W G O) (train_dl test_dl : List (List (α × ℕ)))
    (model0 : ModelState W G) (criterion : List (List ℚ × ℕ) → L)
    (print_freq : ℕ) (lr : ℚ) (dev : Device) :
    (train_model lib train_dl test_dl model0 criterion 0 print_freq lr dev).model.params = model0.params ∧
    (train_model lib train_dl test_dl model0 criterion 0 print_freq lr dev).accDict = [] ∧
    (train_model lib train_dl test_dl model0 criterion 0 print_freq lr dev).lossDict = [] ∧
    (train_model lib train_dl test_dl model0 criterion 0 print_freq lr dev).printedEpochs = [] :=
  ⟨rfl, rfl, rfl, rfl⟩

/-- Claim C9: `validate` mutates no model parameter and retains no gradient —
the parameters and the parameter gradients of the model state it returns are
exactly those it was given (its loop only accumulates the loss, correctness
and sample counters; it contains no backward call and no optimizer call), and
the only model field it writes is the mode flag. -/
theorem validate_frame {α W G O L : Type} [DivisionRing L]
    (lib : TorchLib α W G O) (test_dl : List (List (α × ℕ)))
    (m : ModelState W G) (criterion : List (List ℚ × ℕ) → L) (dev : Device) :
    (validate lib test_dl m criterion dev).2.1.params = m.params ∧
    (validate lib test_dl m criterion dev).2.1.grad = m.grad ∧
    (validate lib test_dl m criterion dev).2.1.mode = Mode.eval :=
  ⟨rfl, rfl, rfl⟩

/-- Claim C10: for every epoch count `N_epochs ≥ 1` the model returned by the
driver is in evaluation mode: the final epoch always satisfies the validation
guard, validation switches the model to evaluation mode, and nothing
afterwards switches it back. -/
theorem train_model_final_mode {α W G O L : Type} [DivisionRing L]
    (lib : TorchLib α W G O) (train_dl test_dl : List (List (α × ℕ)))
    (model0 : ModelState W G) (criterion : List (List ℚ × ℕ) → L)
    (N_epochs print_freq : ℕ) (lr : ℚ) (dev : Device) (hE : 1 ≤ N_epochs) :
    (train_model lib train_dl test_dl model0 criterion N_epochs print_freq lr dev).model.mode
      = Mode.eval := by
  obtain ⟨n, rfl⟩ : ∃ n, N_epochs = n + 1 := ⟨N_epochs - 1, by omega⟩
  rw [train_model, List.range_succ, List.foldl_append, List.foldl_cons, List.foldl_nil]
  rw [runEpoch_mode]
  have hg : valGuard (n + 1) print_freq n = true := by
    simp [valGuard]
  rw [hg]
  simp

/-- Witness for claim C10 at a single-epoch run. -/
theorem train_model_final_mode_witness :
    1 ≤ 1 ∧
    (train_model unitLib unitLoader unitLoader unitModel qCriterion 1 1 (1 / 1000)
        Device.cpu).model.mode = Mode.eval :=
  ⟨by decide,
    train_model_final_mode unitLib unitLoader unitLoader unitModel qCriterion 1 1 (1 / 1000)
      Device.cpu (by decide)⟩

/-- Claim C4: in every batch step the running loss is accumulated from the
scores of the INCOMING parameters (scores and loss are computed before any
update), the gradient present at step time is the cleared gradient plus the
gradient of the current batch alone, the parameter update is applied to
exactly that gradient, and the whole step result is independent of whatever
gradient was accumulated before the step — no gradient leaks across batches,
because `optimizer.zero_grad()` runs before `loss.backward()`. -/
theorem trainBatchStep_order {α W G O L : Type} [DivisionRing L]
    (lib : TorchLib α W G O) (criterion : List (List ℚ × ℕ) → L) (dev : Device)
    (st : TrainState W G O L) (batch : List (α × ℕ)) :
    (trainBatchStep lib criterion dev st batch).currLoss
        = st.currLoss + criterion (scoreBatch (lib.forward st.model.params st.model.mode) batch) ∧
    (trainBatchStep lib criterion dev st batch).model.grad
        = lib.gAdd lib.gZero (lib.gradFn st.model.params st.model.mode batch) ∧
    (trainBatchStep lib criterion dev st batch).model.params
        = (lib.optStep st.opt st.model.params
            (lib.gAdd lib.gZero (lib.gradFn st.model.params st.model.mode batch))).2 ∧
    ∀ gPrev : G,
      trainBatchStep lib criterion dev
          { st with model := { st.model with grad := gPrev } } batch
        = trainBatchStep lib criterion dev st batch :=
  ⟨rfl, rfl, rfl, fun _ => rfl⟩

/-- Claim C1 is refuted by the code: even when no accelerator is available
(`selectDevice false = Device.cpu`), `validate` unconditionally performs the
CUDA memory query of its debugging print line — the accelerator-only facility
is invoked regardless of the selected device, unlike the device-information
prints at the top of the notebook, which are guarded by
`if device.type == 'cuda'`. -/
theorem validate_queries_cuda_without_accelerator :
    Effect.cudaMemoryQuery ∈
      (validate unitLib unitLoader unitModel qCriterion (selectDevice false)).2.2 := by
  decide

/-- Claim C2 is refuted by the code: `model.train()` runs once before the
epoch loop, and validation at the end of epoch 0 switches the model to
evaluation mode without anything switching it back, so with two epochs and a
cadence of one (the notebook runs twenty epochs at cadence one) the second
epoch's batch loop — over a non-empty train loader, so real optimizer steps —
begins and runs in evaluation mode, not training mode. -/
theorem train_model_second_epoch_in_eval_mode :
    (train_model unitLib unitLoader unitLoader unitModel qCriterion 2 1 (1 / 1000)
        Device.cpu).batchLoopModes = [Mode.train, Mode.eval] := by
  decide

/-! ## Bounds on the validation outputs (claim C8) -/

/-- Per-sample cross-entropy is nonnegative whenever the target label is a
valid class index: the softmax probability of any class is at most one. -/
theorem nllLoss_nonneg (s : List ℚ) (y : ℕ) (hy : y < s.length) : 0 ≤ nllLoss s y := by
  unfold nllLoss
  have hget : s.getD y 0 = s[y] := List.getD_eq_getElem s 0 hy
  have hmem : Real.exp ((s.getD y 0 : ℚ) : ℝ) ∈ s.map (fun q : ℚ => Real.exp (q : ℝ)) := by
    rw [hget]
    exact List.mem_map_of_mem (fun q : ℚ => Real.exp (q : ℝ)) (List.getElem_mem hy)
  have hpos : ∀ x ∈ s.map (fun q : ℚ => Real.exp (q : ℝ)), 0 ≤ x := by
    intro x hx
    rcases List.mem_map.mp hx with ⟨q, hq, rfl⟩
    exact (Real.exp_pos _).le
  have hle : Real.exp ((s.getD y 0 : ℚ) : ℝ) ≤ (s.map (fun q : ℚ => Real.exp (q : ℝ))).sum :=
    List.single_le_sum hpos _ hmem
  have hlog : ((s.getD y 0 : ℚ) : ℝ) ≤ Real.log ((s.map (fun q : ℚ => Real.exp (q : ℝ))).sum) := by
    calc ((s.getD y 0 : ℚ) : ℝ) = Real.log (Real.exp ((s.getD y 0 : ℚ) : ℝ)) :=
          (Real.log_exp _).symm
    _ ≤ _ := Real.log_le_log (Real.exp_pos _) hle
  linarith

/-- The batch-mean cross-entropy is nonnegative on any batch of validly
labelled samples. -/
theorem crossEntropyLoss_nonneg (scored : List (List ℚ × ℕ))
    (h : ∀ p ∈ scored, p.2 < p.1.length) : 0 ≤ crossEntropyLoss scored := by
  unfold crossEntropyLoss
  apply div_nonneg
  · apply List.sum_nonneg
    intro x hx
    rcases List.mem_map.mp hx with ⟨p, hp, rfl⟩
    exact nllLoss_nonneg p.1 p.2 (h p hp)
  · exact Nat.cast_nonneg _

/-- The sample counter of the validation loop totals the batch lengths. -/
theorem valFold_count {α L : Type} [DivisionRing L] (fw : α → List ℚ)
    (criterion : List (List ℚ × ℕ) → L) :
    ∀ (dl : List (List (α × ℕ))) (acc : L × ℕ × ℕ),
      (dl.foldl (valStep fw criterion) acc).2.2 = acc.2.2 + (dl.map List.length).sum := by
  intro dl
  induction dl with
  | nil => intro acc; simp
  | cons b bs ih =>
    intro acc
    rw [List.foldl_cons, ih]
    simp [valStep]
    omega

/-- The correct-prediction counter never exceeds the sample counter. -/
theorem valFold_correct_le {α L : Type} [DivisionRing L] (fw : α → List ℚ)
    (criterion : List (List ℚ × ℕ) → L) :
    ∀ (dl : List (List (α × ℕ))) (acc : L × ℕ × ℕ), acc.2.1 ≤ acc.2.2 →
      (dl.foldl (valStep fw criterion) acc).2.1 ≤ (dl.foldl (valStep fw criterion) acc).2.2 := by
  intro dl
  induction dl with
  | nil => intro acc h; exact h
  | cons b bs ih =>
    intro acc h
    rw [List.foldl_cons]
    apply ih
    have hcc : correctCount (scoreBatch fw b) ≤ b.length := by
      have h1 : correctCount (scoreBatch fw b) ≤ (scoreBatch fw b).length :=
        List.length_filter_le _ _
      have h2 : (scoreBatch fw b).length = b.length := List.length_map _ _
      omega
    simp only [valStep]
    omega

/-- The loss accumulator of the validation loop stays nonnegative when every
batch loss is nonnegative. -/
theorem valFold_loss_nonneg {α : Type} (fw : α → List ℚ)
    (criterion : List (List ℚ × ℕ) → ℝ) :
    ∀ (dl : List (List (α × ℕ))), (∀ b ∈ dl, 0 ≤ criterion (scoreBatch fw b)) →
      ∀ (acc : ℝ × ℕ × ℕ), 0 ≤ acc.1 → 0 ≤ (dl.foldl (valStep fw criterion) acc).1 := by
  intro dl
  induction dl with
  | nil => intro h acc hacc; exact hacc
  | cons b bs ih =>
    intro h acc hacc
    rw [List.foldl_cons]
    apply ih
    · intro c hc
      exact h c (List.mem_cons_of_mem b hc)
    · have hb : 0 ≤ criterion (scoreBatch fw b) := h b (List.mem_cons_self b bs)
      simp only [valStep]
      exact add_nonneg hacc hb

/-- Claim C8: over any non-empty held-out pass with valid labels, the
validation loss returned by `validate` (with the notebook's cross-entropy
criterion) is nonnegative and the validation accuracy lies in the unit
interval. -/
theorem validate_bounds {α W G O : Type} (lib : TorchLib α W G O)
    (test_dl : List (List (α × ℕ))) (m : ModelState W G) (dev : Device)
    (hlab : ∀ b ∈ test_dl, ∀ s ∈ b, s.2 < (lib.forward m.params Mode.eval s.1).length)
    (hne : 0 < (test_dl.map List.length).sum) :
    0 ≤ (validate lib test_dl m crossEntropyLoss dev).1.loss ∧
    0 ≤ (validate lib test_dl m crossEntropyLoss dev).1.acc ∧
    (validate lib test_dl m crossEntropyLoss dev).1.acc ≤ 1 := by
  have hcrit : ∀ b ∈ test_dl,
      0 ≤ crossEntropyLoss (scoreBatch (lib.forward m.params Mode.eval) b) := by
    intro b hb
    apply crossEntropyLoss_nonneg
    intro p hp
    rcases List.mem_map.mp hp with ⟨sam, hsam, rfl⟩
    exact hlab b hb sam hsam
  have hN := valFold_count (lib.forward m.params Mode.eval) crossEntropyLoss test_dl
    ((0 : ℝ), 0, 0)
  have hC := valFold_correct_le (lib.forward m.params Mode.eval) crossEntropyLoss test_dl
    ((0 : ℝ), 0, 0) (le_refl 0)
  have hL := valFold_loss_nonneg (lib.forward m.params Mode.eval) crossEntropyLoss test_dl
    hcrit ((0 : ℝ), 0, 0) (le_refl 0)
  have hNpos : 0 <
      (test_dl.foldl (valStep (lib.forward m.params Mode.eval) crossEntropyLoss)
        ((0 : ℝ), 0, 0)).2.2 := by
    rw [hN]
    omega
  refine ⟨?_, ?_, ?_⟩
  · show 0 ≤ (test_dl.foldl (valStep (lib.forward m.params Mode.eval) crossEntropyLoss)
      ((0 : ℝ), 0, 0)).1 /
      (((test_dl.foldl (valStep (lib.forward m.params Mode.eval) crossEntropyLoss)
        ((0 : ℝ), 0, 0)).2.2 : ℕ) : ℝ)
    exact div_nonneg hL (Nat.cast_nonneg _)
  · show 0 ≤ ((test_dl.foldl (valStep (lib.forward m.params Mode.eval) crossEntropyLoss)
      ((0 : ℝ), 0, 0)).2.1 : ℚ) /
      ((test_dl.foldl (valStep (lib.forward m.params Mode.eval) crossEntropyLoss)
        ((0 : ℝ), 0, 0)).2.2 : ℚ)
    exact div_nonneg (Nat.cast_nonneg _) (Nat.cast_nonneg _)
  · show ((test_dl.foldl (valStep (lib.forward m.params Mode.eval) crossEntropyLoss)
      ((0 : ℝ), 0, 0)).2.1 : ℚ) /
      ((test_dl.foldl (valStep (lib.forward m.params Mode.eval) crossEntropyLoss)
        ((0 : ℝ), 0, 0)).2.2 : ℚ) ≤ 1
    rw [div_le_one (by exact_mod_cast hNpos)]
    exact_mod_cast hC

/-- Witness for claim C8 on a one-batch, one-sample held-out pass. -/
theorem validate_bounds_witness :
    ((∀ b ∈ unitLoader, ∀ s ∈ b, s.2 < (unitLib.forward unitModel.params Mode.eval s.1).length) ∧
      0 < (unitLoader.map List.length).sum) ∧
    (0 ≤ (validate unitLib unitLoader unitModel crossEntropyLoss Device.cpu).1.loss ∧
     0 ≤ (validate unitLib unitLoader unitModel crossEntropyLoss Device.cpu).1.acc ∧
     (validate unitLib unitLoader unitModel crossEntropyLoss Device.cpu).1.acc ≤ 1) :=
  ⟨⟨by decide, by decide⟩,
    validate_bounds unitLib unitLoader unitModel Device.cpu (by decide) (by decide)⟩

/-- Claim C3 is refuted by the code: on a held-out pass of three samples in
batches of sizes two and one, where each of the first two samples has
two-class scores `[0, 0]` with label `0` (per-sample loss `log 2`) and the
third has the single-class score `[0]` with label `0` (per-sample loss `0`),
`validate` returns `(log 2) / 3` — the sum of the per-batch MEAN losses
divided by the sample count — whereas the sum of per-sample losses divided by
the sample count is `(2 log 2) / 3`.  The two quantities differ. -/
theorem validate_loss_not_mean_per_sample :
    (validate c3Lib c3Loader unitModel crossEntropyLoss Device.cpu).1.loss
      ≠ specMeanPerSampleLoss c3Forward c3Loader := by
  have hL : (validate c3Lib c3Loader unitModel crossEntropyLoss Device.cpu).1.loss
      = ((0 + crossEntropyLoss [([0, 0], 0), ([0, 0], 0)])
          + crossEntropyLoss [([0], 0)]) / ((3 : ℕ) : ℝ) := rfl
  have h1 : crossEntropyLoss [([0, 0], 0), ([0, 0], 0)] = Real.log 2 := by
    simp [crossEntropyLoss, nllLoss, Real.exp_zero]
    ring_nf
  have h2 : crossEntropyLoss [([0], 0)] = 0 := by
    simp [crossEntropyLoss, nllLoss, Real.exp_zero, Real.log_one]
  have hR : specMeanPerSampleLoss c3Forward c3Loader = (2 * Real.log 2) / 3 := by
    simp [specMeanPerSampleLoss, c3Loader, c3Forward, nllLoss, Real.exp_zero, Real.log_one]
    ring_nf
  rw [hL, h1, h2, hR]
  have hlog : 0 < Real.log 2 := Real.log_pos (by norm_num)
  intro heq
  norm_num at heq
  linarith

end Cifar
